import Mathlib

/-!
Shallow embedding of the automated trading decision engine of
`src/server/services/trading-bot.ts` and of the news gate of the news
service, together with proofs of the safety, functional-correctness and
error-handling properties stated about them.

Prices, confidences and monetary amounts are modelled as rationals (exact
arithmetic over the values the JavaScript code manipulates); wall-clock
timestamps are naturals (milliseconds, as produced by `Date.now()`).
Fallible external calls (price fetch, order submission, news lookup) are
modelled with `Except`, a thrown exception being the `error` case.
-/

namespace TmBot

/-- The actions a `TradingSignal` can carry. -/
inductive TradeAction
  | BUY
  | SELL
  | CLOSE
  deriving DecidableEq, Repr

/-- The `TradingSignal` record of trading-bot.ts. -/
structure TradingSignal where
  symbol : String
  action : TradeAction
  confidence : ℚ
  reason : String
  stopLoss : Option ℚ
  takeProfit : Option ℚ
  deriving DecidableEq, Repr

/-- The `StrategyParams` record: window lengths and RSI thresholds. -/
structure StrategyParams where
  fastMA : ℕ
  slowMA : ℕ
  rsiPeriod : ℕ
  rsiOverbought : ℚ
  rsiOversold : ℚ
  deriving DecidableEq, Repr

/-- The literal fallback parameters both strategies use when
`settings.strategyParams` is absent. -/
def defaultParams : StrategyParams :=
  ⟨10, 20, 14, 70, 30⟩

/-- The per-account `BotSettings` fields the engine reads.  `riskPerTrade`
is the stored decimal value (the code parses it and divides by 100). -/
structure BotSettings where
  strategy : String
  strategyParams : Option StrategyParams
  riskPerTrade : ℚ
  tradingSymbols : List String
  newsAvoidanceMinutes : ℕ
  deriving Repr

/-- JavaScript `array.slice(-period)`: the last `period` elements of the
array; `slice(-0)` is the whole array, and so is `slice(-p)` for `p` at
least the length. -/
def sliceLast (l : List ℚ) (period : ℕ) : List ℚ :=
  if period = 0 then l else l.drop (l.length - period)

/-- `calculateSMA`: the average of the last `period` prices (of the whole
series when fewer are available). -/
def calculateSMA (prices : List ℚ) (period : ℕ) : ℚ :=
  let s := sliceLast prices period
  s.sum / s.length

/-- The consecutive changes `prices[i] - prices[i-1]`, `i = 1, …`. -/
def priceChanges (prices : List ℚ) : List ℚ :=
  List.zipWith (fun a b => a - b) prices.tail prices

/-- The average gain of `calculateRSI`: positive changes kept, others
zeroed, summed over the last `period` entries and divided by `period`. -/
def avgGain (prices : List ℚ) (period : ℕ) : ℚ :=
  (sliceLast ((priceChanges prices).map fun c => if 0 < c then c else 0) period).sum / period

/-- The average loss of `calculateRSI`: absolute values of negative
changes, summed over the last `period` entries and divided by `period`. -/
def avgLoss (prices : List ℚ) (period : ℕ) : ℚ :=
  (sliceLast ((priceChanges prices).map fun c => if c < 0 then |c| else 0) period).sum / period

/-- `calculateRSI` of trading-bot.ts (with `rs = avgGain / avgLoss`
inlined). -/
def calculateRSI (prices : List ℚ) (period : ℕ) : ℚ :=
  if prices.length < period + 1 then 50
  else if avgLoss prices period = 0 then 100
  else 100 - 100 / (1 + avgGain prices period / avgLoss prices period)

/-- JS `this.settings?.strategyParams || { …defaults }`. -/
def resolvedParams (settings : Option BotSettings) : StrategyParams :=
  (settings.bind fun s => s.strategyParams).getD defaultParams

/-- `prices[prices.length - 1]`; callers guarantee nonemptiness. -/
def lastPrice (prices : List ℚ) : ℚ :=
  prices.getLastD 0

/-- `maStrategy`: moving-average crossover over the full history and over
the history minus its last point (`prices.slice(0, -1)`). -/
def maStrategy (settings : Option BotSettings) (symbol : String) (prices : List ℚ) :
    Option TradingSignal :=
  let params := resolvedParams settings
  if prices.length < params.slowMA then none
  else
    let fastMA := calculateSMA prices params.fastMA
    let slowMA := calculateSMA prices params.slowMA
    let prevFastMA := calculateSMA prices.dropLast params.fastMA
    let prevSlowMA := calculateSMA prices.dropLast params.slowMA
    let currentPrice := lastPrice prices
    if prevFastMA ≤ prevSlowMA ∧ slowMA < fastMA then
      some ⟨symbol, TradeAction.BUY, 7/10, "MA Bullish Crossover",
        some (currentPrice * (995/1000)), some (currentPrice * (101/100))⟩
    else if prevSlowMA ≤ prevFastMA ∧ fastMA < slowMA then
      some ⟨symbol, TradeAction.SELL, 7/10, "MA Bearish Crossover",
        some (currentPrice * (1005/1000)), some (currentPrice * (99/100))⟩
    else none

/-- `rsiStrategy` (the interpolated RSI value of the reason string is left
out of the model). -/
def rsiStrategy (settings : Option BotSettings) (symbol : String) (prices : List ℚ) :
    Option TradingSignal :=
  let params := resolvedParams settings
  if prices.length < params.rsiPeriod + 1 then none
  else
    let rsi := calculateRSI prices params.rsiPeriod
    let currentPrice := lastPrice prices
    if rsi < params.rsiOversold then
      some ⟨symbol, TradeAction.BUY, 6/10, "RSI Oversold",
        some (currentPrice * (995/1000)), some (currentPrice * (1015/1000))⟩
    else if params.rsiOverbought < rsi then
      some ⟨symbol, TradeAction.SELL, 6/10, "RSI Overbought",
        some (currentPrice * (1005/1000)), some (currentPrice * (985/1000))⟩
    else none

/-- JS `this.settings?.strategy || 'ma_crossover'` (an absent settings
object and the empty string are both falsy). -/
def selectedStrategy (settings : Option BotSettings) : String :=
  match settings with
  | none => "ma_crossover"
  | some s => if s.strategy = "" then "ma_crossover" else s.strategy

/-- `generateTradingSignal`; `history` is `priceHistory.get(symbol)`
(`none` when the symbol was never recorded). -/
def generateTradingSignal (settings : Option BotSettings) (symbol : String)
    (history : Option (List ℚ)) : Option TradingSignal :=
  match history with
  | none => none
  | some prices =>
    if prices.length < 50 then none
    else
      match selectedStrategy settings with
      | "ma_crossover" => maStrategy settings symbol prices
      | "rsi_strategy" => rsiStrategy settings symbol prices
      | _ => maStrategy settings symbol prices

/-- `updatePriceHistory`: push the new price, then shift the oldest one
out if the buffer now holds more than 200 entries. -/
def updatePriceHistory (history : List ℚ) (price : ℚ) : List ℚ :=
  let pushed := history ++ [price]
  if 200 < pushed.length then pushed.tail else pushed

/-- `minSignalInterval = 5 * 60 * 1000` milliseconds. -/
def minSignalInterval : ℕ :=
  5 * 60 * 1000

/-- `shouldExecuteSignal`: `lastSignal` is the stored per-symbol timestamp
(`0` when the map holds none), `now` the current clock in milliseconds. -/
def shouldExecuteSignal (lastSignal now : ℕ) (confidence : ℚ) : Bool :=
  if (now : ℤ) - (lastSignal : ℤ) < (minSignalInterval : ℤ) then false
  else if confidence < 1/2 then false
  else true

/-- One admission/execution round for one symbol: `tAdmit` is the clock
when `shouldExecuteSignal` runs, `tExec` the clock at which
`lastSignalTime` would be written, and `persistOk` records whether order
submission and trade logging completed without throwing (on a throw,
`executeSignal` catches the error and the write is skipped). -/
structure SignalEval where
  tAdmit : ℕ
  tExec : ℕ
  confidence : ℚ
  persistOk : Bool
  deriving DecidableEq, Repr

/-- The per-symbol `lastSignalTime` after one evaluation round. -/
def stepSignal (lastSignal : ℕ) (e : SignalEval) : ℕ :=
  if shouldExecuteSignal lastSignal e.tAdmit e.confidence && e.persistOk
  then e.tExec else lastSignal

/-- The per-symbol `lastSignalTime` after a sequence of rounds. -/
def runSignals (lastSignal : ℕ) (es : List SignalEval) : ℕ :=
  es.foldl stepSignal lastSignal

/-- JS `Math.round`: half-up rounding, `⌊x + 1/2⌋`. -/
def jsRound (x : ℚ) : ℤ :=
  ⌊x + 1/2⌋

/-- `riskAmount = balance * (parseFloat(settings.riskPerTrade) / 100)`. -/
def riskAmount (balance riskPerTrade : ℚ) : ℚ :=
  balance * (riskPerTrade / 100)

/-- The stop-loss distance `executeSignal` uses: distance from the current
bid to the signal's stop loss, or 0.5% of the bid when the signal carries
none. -/
def stopLossDistance (bid : ℚ) (stopLoss : Option ℚ) : ℚ :=
  match stopLoss with
  | some sl => |bid - sl|
  | none => bid * (5/1000)

/-- The uncapped-then-capped lot size
`min(riskAmount / (stopLossDistance * 100000), 1.0)`. -/
def rawVolume (risk stopDistance : ℚ) : ℚ :=
  min (risk / (stopDistance * 100000)) 1

/-- The volume placed on the order: `Math.round(volume * 100) / 100`. -/
def orderVolume (risk stopDistance : ℚ) : ℚ :=
  (jsRound (rawVolume risk stopDistance * 100) : ℚ) / 100

/-- The supervisor state that the status report depends on. -/
structure BotState where
  isRunning : Bool
  settings : Option BotSettings

/-- A freshly constructed bot: not running, no settings loaded. -/
def initialBot : BotState :=
  ⟨false, none⟩

/-- `start`: stores the loaded settings, then either throws (settings
missing, or gateway disconnected), which the catch turns into an `error`
event and a `false` return, or enters the running state and returns
`true`.  The Bool is the promise's value. -/
def startBot (b : BotState) (storedSettings : Option BotSettings)
    (mt5Connected : Bool) : BotState × Bool :=
  let b1 : BotState := ⟨b.isRunning, storedSettings⟩
  match storedSettings with
  | none => (b1, false)
  | some _ => if mt5Connected then (⟨true, storedSettings⟩, true) else (b1, false)

/-- `getStatus`. -/
def getStatus (b : BotState) : String :=
  if b.isRunning then "running" else "stopped"

/-- Outcome of one symbol's pipeline inside `runTradingLoop`; `error`
models a thrown exception (gateway failure, malformed data). -/
abbrev SymbolOutcome := Except String Unit

/-- The symbol loop of `runTradingLoop`: the `try` block wraps the whole
`for`, so the pipeline runs symbol by symbol until the first throw; the
catch then reports that error as a non-fatal `error` event and the tick
ends.  Returns the symbols whose pipeline was entered, and the reported
error if any. -/
def runTick (pipeline : String → SymbolOutcome) :
    List String → List String × Option String
  | [] => ([], none)
  | s :: rest =>
    match pipeline s with
    | Except.ok _ =>
      let r := runTick pipeline rest
      (s :: r.1, r.2)
    | Except.error e => ([s], some e)

/-- JS `symbol.slice(a, b)` over the character sequence. -/
def strSlice (s : String) (a b : ℕ) : String :=
  String.mk ((s.toList.drop a).take (b - a))

/-- `extractCurrenciesFromSymbol` of the news service: the two 3-letter
halves of a symbol of length at least 6, nothing otherwise. -/
def extractCurrenciesFromSymbol (symbol : String) : List String :=
  if 6 ≤ symbol.length then [strSlice symbol 0 3, strSlice symbol 3 6] else []

/-- The stored news-event fields the gate reads. -/
structure NewsEvent where
  impact : String
  currency : String
  deriving DecidableEq, Repr

/-- `shouldPauseTradingForNews`: `lookup` is the outcome of
`storage.getUpcomingNews` (`error` models a throw, which the catch
answers with `false`). -/
def shouldPauseTradingForNews (symbol : String)
    (lookup : Except String (List NewsEvent)) : Bool :=
  match lookup with
  | Except.error _ => false
  | Except.ok events =>
    let currencies := extractCurrenciesFromSymbol symbol
    events.any fun e => e.impact == "high" && currencies.contains e.currency

/-- Small strategy windows for concrete evaluation. -/
def smallParams : StrategyParams :=
  ⟨2, 3, 14, 70, 30⟩

/-- A settings object selecting the crossover strategy with the small
windows. -/
def smallSettings : BotSettings :=
  ⟨"ma_crossover", some smallParams, 1, ["EURUSD"], 30⟩

/-- A concrete history: two flat prices then a jump, which is a bullish
crossover under the 2/3 windows. -/
def pricesUp : List ℚ :=
  [100, 100, 104]

/-- A round admitted at t = 300000 ms whose execution then throws while
persisting, so `lastSignalTime` is never written. -/
def evalLost : SignalEval :=
  ⟨300000, 300000, 7/10, false⟩

/-- A round generated one minute after `evalLost`. -/
def evalSoon : SignalEval :=
  ⟨360000, 360000, 7/10, true⟩

/-- A round admitted and fully executed at t = 300000 ms. -/
def evalDone : SignalEval :=
  ⟨300000, 300000, 7/10, true⟩

/-- A pipeline whose EURUSD evaluation throws and which succeeds on every
other symbol. -/
def failingPipeline : String → SymbolOutcome :=
  fun s => if s = "EURUSD" then Except.error "price fetch failed" else Except.ok ()

/-- C6: with fewer than 50 recorded prices — including no record at all —
`generateTradingSignal` returns no signal, for every settings object and
hence for every strategy selection and parameter set. -/
theorem generateTradingSignal_short_none (settings : Option BotSettings)
    (symbol : String) (prices : List ℚ) (hshort : prices.length < 50) :
    generateTradingSignal settings symbol (some prices) = none ∧
      generateTradingSignal settings symbol none = none := by
  constructor
  · simp [generateTradingSignal, if_pos hshort]
  · rfl

/-- Witness for C6 at the empty history. -/
theorem generateTradingSignal_short_none_witness :
    generateTradingSignal none "EURUSD" (some []) = none ∧
      generateTradingSignal none "EURUSD" none = none :=
  generateTradingSignal_short_none none "EURUSD" [] (by decide)

/-- One `record` step, with the buffered length test brought to the
front: append, and drop the head exactly when the buffer was full. -/
theorem updatePriceHistory_eq (h : List ℚ) (p : ℚ) :
    updatePriceHistory h p =
      if 200 ≤ h.length then (h ++ [p]).tail else h ++ [p] := by
  simp only [updatePriceHistory, List.length_append, List.length_singleton]
  by_cases hc : 200 ≤ h.length
  · rw [if_pos (by omega), if_pos hc]
  · rw [if_neg (by omega), if_neg hc]

/-- The buffer built from any observation sequence is exactly the last
(at most) 200 observations, in order. -/
theorem foldl_updatePriceHistory (ops : List ℚ) :
    ops.foldl updatePriceHistory [] = ops.drop (ops.length - 200) := by
  induction ops using List.reverseRecOn with
  | nil => rfl
  | append_singleton l a ih =>
    rw [List.foldl_append, List.foldl_cons, List.foldl_nil, ih,
      updatePriceHistory_eq]
    by_cases h : 200 ≤ l.length
    · have hlen : (l.drop (l.length - 200)).length = 200 := by
        rw [List.length_drop]; omega
      rw [if_pos (by omega)]
      rw [← List.drop_one, List.drop_append_of_le_length (by omega),
        List.drop_drop, List.length_append, List.length_singleton,
        List.drop_append_of_le_length (by omega)]
      have e3 : l.length - 200 + 1 = l.length + 1 - 200 := by omega
      rw [e3]
    · rw [if_neg (by rw [List.length_drop]; omega)]
      have e1 : l.length - 200 = 0 := by omega
      rw [e1, List.drop_zero, List.length_append, List.length_singleton]
      have e2 : l.length + 1 - 200 = 0 := by omega
      rw [e2, List.drop_zero]

/-- C9: after any sequence of `record` operations the per-symbol history
holds exactly the most recent (at most 200) observations in observation
order, and one further `record` appends at the tail and, exactly when the
buffer is full, evicts the single oldest element; `record` is a total
function and never fails. -/
theorem updatePriceHistory_bounded_fifo (ops : List ℚ) (p : ℚ) :
    (ops.foldl updatePriceHistory []).length ≤ 200 ∧
      ops.foldl updatePriceHistory [] = ops.drop (ops.length - 200) ∧
      updatePriceHistory (ops.foldl updatePriceHistory []) p =
        (if (ops.foldl updatePriceHistory []).length = 200
          then (ops.foldl updatePriceHistory []).tail ++ [p]
          else ops.foldl updatePriceHistory [] ++ [p]) := by
  have hchar := foldl_updatePriceHistory ops
  have hlen : (ops.foldl updatePriceHistory []).length ≤ 200 := by
    rw [hchar, List.length_drop]; omega
  refine ⟨hlen, hchar, ?_⟩
  rw [updatePriceHistory_eq]
  by_cases hfull : (ops.foldl updatePriceHistory []).length = 200
  · rw [if_pos (by omega), if_pos hfull]
    rw [← List.drop_one, List.drop_append_of_le_length (by omega), List.drop_one]
  · rw [if_neg (by omega), if_neg hfull]

/-- C4 counterexample: on the constant series `[1, 1, 1]` with period 2,
the last two changes have average gain 0 and average loss 0, the data is
sufficient, and yet `calculateRSI` returns 100, not the neutral 50. -/
theorem calculateRSI_flat_counterexample :
    2 + 1 ≤ ([1, 1, 1] : List ℚ).length ∧
      avgGain [1, 1, 1] 2 = 0 ∧ avgLoss [1, 1, 1] 2 = 0 ∧
      calculateRSI [1, 1, 1] 2 = 100 ∧ calculateRSI [1, 1, 1] 2 ≠ 50 := by
  have hgain : avgGain [1, 1, 1] 2 = 0 := by
    norm_num [avgGain, priceChanges, sliceLast]
  have hloss : avgLoss [1, 1, 1] 2 = 0 := by
    norm_num [avgLoss, priceChanges, sliceLast]
  have hrsi : calculateRSI [1, 1, 1] 2 = 100 := by
    rw [calculateRSI, if_neg (by norm_num), if_pos hloss]
  exact ⟨by norm_num, hgain, hloss, hrsi, by rw [hrsi]; norm_num⟩

/-- C4 amended: whenever the data suffices (`period + 1 ≤ length`, with a
positive period) and the average loss is zero, `calculateRSI` returns 100
— regardless of the average gain, which may itself be zero. -/
theorem calculateRSI_zero_loss (prices : List ℚ) (period : ℕ)
    (_hperiod : 1 ≤ period) (hlen : period + 1 ≤ prices.length)
    (hloss : avgLoss prices period = 0) :
    calculateRSI prices period = 100 := by
  unfold calculateRSI
  rw [if_neg (by omega), if_pos hloss]

/-- Witness for C4's amended theorem on the constant series. -/
theorem calculateRSI_zero_loss_witness :
    calculateRSI [1, 1, 1] 2 = 100 :=
  calculateRSI_zero_loss [1, 1, 1] 2 (by norm_num) (by norm_num)
    (by norm_num [avgLoss, priceChanges, sliceLast])

/-- C3 counterexample: with balance 100000 and a stored risk-per-trade of
0.01 (the claimed "fraction meaning 1%"), the code's risk amount is not
`balance × 0.01 = 1000`; it is 10, because the code divides the stored
value by 100. -/
theorem riskAmount_fraction_counterexample :
    riskAmount 100000 (1/100) ≠ 100000 * (1/100) ∧
      riskAmount 100000 (1/100) = 10 := by
  constructor <;> norm_num [riskAmount]

/-- C3 amended: the stored risk-per-trade value is a percentage of
balance, not a fraction: the risk amount is `balance × (r / 100)`, so a
fraction `f` of the balance is risked exactly when the stored value is
`100 × f`. -/
theorem riskAmount_percent (balance r f : ℚ) :
    riskAmount balance r = balance * r / 100 ∧
      riskAmount balance (100 * f) = balance * f := by
  constructor
  · unfold riskAmount; ring
  · unfold riskAmount; field_simp

/-- C5 counterexample: a bot whose `start` failed (no stored settings, and
likewise for a disconnected gateway) reports `"stopped"`, not `"error"`. -/
theorem getStatus_failed_start_counterexample :
    (startBot initialBot none false).2 = false ∧
      getStatus (startBot initialBot none false).1 = "stopped" ∧
      getStatus (startBot initialBot none false).1 ≠ "error" := by
  refine ⟨rfl, rfl, by decide⟩

/-- C5 amended: `getStatus` is observably two-valued — every reachable or
unreachable supervisor state reports `"running"` or `"stopped"`, and the
`error` condition of a failed start is signalled only through the emitted
`error` event and the `false` return of `start`, never through status. -/
theorem getStatus_two_valued (b : BotState) :
    getStatus b = "running" ∨ getStatus b = "stopped" := by
  unfold getStatus
  by_cases h : b.isRunning
  · left; rw [if_pos h]
  · right; rw [if_neg h]

/-- A signal within the cooldown window is refused, whatever its
confidence. -/
theorem shouldExecuteSignal_cooldown (lastSignal now : ℕ) (c : ℚ)
    (h : now < lastSignal + minSignalInterval) :
    shouldExecuteSignal lastSignal now c = false := by
  have hc : (now : ℤ) - (lastSignal : ℤ) < (minSignalInterval : ℤ) := by
    omega
  unfold shouldExecuteSignal
  rw [if_pos hc]

/-- While every round stays within the cooldown window of the stored
timestamp, no round is admitted and the timestamp never moves. -/
theorem runSignals_stall (lastSignal : ℕ) (es : List SignalEval)
    (h : ∀ e ∈ es, e.tAdmit < lastSignal + minSignalInterval) :
    runSignals lastSignal es = lastSignal := by
  induction es with
  | nil => rfl
  | cons e rest ih =>
    have hfalse := shouldExecuteSignal_cooldown lastSignal e.tAdmit e.confidence
      (h e (List.mem_cons_self e rest))
    have hstep : stepSignal lastSignal e = lastSignal := by
      simp [stepSignal, hfalse]
    show List.foldl stepSignal lastSignal (e :: rest) = lastSignal
    rw [List.foldl_cons, hstep]
    exact ih fun e' he' => h e' (List.mem_cons_of_mem e he')

/-- C1 counterexample: the round `evalLost` is admitted (so the order is
submitted), but its trade-logging step throws, so `lastSignalTime` is
never written; a round one minute later — well inside the 5-minute
window — is admitted again instead of being discarded. -/
theorem cooldown_counterexample :
    shouldExecuteSignal 0 evalLost.tAdmit evalLost.confidence = true ∧
      evalSoon.tAdmit - evalLost.tAdmit < minSignalInterval ∧
      shouldExecuteSignal (stepSignal 0 evalLost) evalSoon.tAdmit
        evalSoon.confidence = true := by
  refine ⟨?_, ?_, ?_⟩ <;>
    norm_num [shouldExecuteSignal, stepSignal, evalLost, evalSoon, minSignalInterval]

/-- C1 amended: the cooldown is keyed to the last fully executed signal.
Whenever a round is admitted and its execution completes (order submitted
and trade logged, so `lastSignalTime` is written), every later round for
that symbol whose admission check runs less than 5 minutes after that
admission is discarded, regardless of its confidence; only a throw after
admission (e.g. during order submission or trade persistence) can re-open
the window early. -/
theorem cooldown_after_success (s : ℕ) (pre mid : List SignalEval)
    (e1 e2 : SignalEval)
    (hadm : shouldExecuteSignal (runSignals s pre) e1.tAdmit e1.confidence = true)
    (hok : e1.persistOk = true)
    (hexec : e1.tAdmit ≤ e1.tExec)
    (hmid : ∀ e ∈ mid, e.tAdmit < e1.tAdmit + minSignalInterval)
    (hsoon : e2.tAdmit < e1.tAdmit + minSignalInterval) :
    shouldExecuteSignal (runSignals (stepSignal (runSignals s pre) e1) mid)
      e2.tAdmit e2.confidence = false := by
  have hstep : stepSignal (runSignals s pre) e1 = e1.tExec := by
    simp [stepSignal, hadm, hok]
  rw [hstep, runSignals_stall e1.tExec mid
    (fun e he => by have := hmid e he; omega)]
  exact shouldExecuteSignal_cooldown _ _ _ (by omega)

/-- Witness for C1's amended theorem: after the fully executed round
`evalDone`, the round `evalSoon` one minute later is discarded. -/
theorem cooldown_after_success_witness :
    shouldExecuteSignal (runSignals (stepSignal (runSignals 0 []) evalDone) [])
      evalSoon.tAdmit evalSoon.confidence = false :=
  cooldown_after_success 0 [] [] evalDone evalSoon
    (by norm_num [runSignals, shouldExecuteSignal, evalDone, minSignalInterval])
    rfl
    (by norm_num [evalDone])
    (by simp)
    (by norm_num [evalDone, evalSoon, minSignalInterval])

/-- C2 counterexample: with two configured symbols where the first one's
pipeline throws, the tick reports the error but the second symbol is not
evaluated in that tick. -/
theorem runTick_skips_counterexample :
    runTick failingPipeline ["EURUSD", "GBPUSD"] =
        (["EURUSD"], some "price fetch failed") ∧
      "GBPUSD" ∉ (runTick failingPipeline ["EURUSD", "GBPUSD"]).1 := by
  have h : runTick failingPipeline ["EURUSD", "GBPUSD"] =
      (["EURUSD"], some "price fetch failed") := by
    simp [runTick, failingPipeline]
  refine ⟨h, ?_⟩
  rw [h]
  decide

/-- C2 amended: a symbol failure is caught at the tick level and reported
as a non-fatal error event (the tick function returns normally, so the
periodic loop proceeds to the next tick), but the remaining symbols of
the same tick are skipped: the tick evaluates exactly the symbols up to
and including the first failing one. -/
theorem runTick_stops_at_first_failure (pipeline : String → SymbolOutcome)
    (pre : List String) (s : String) (post : List String) (msg : String)
    (hpre : ∀ x ∈ pre, pipeline x = Except.ok ())
    (hfail : pipeline s = Except.error msg) :
    runTick pipeline (pre ++ s :: post) = (pre ++ [s], some msg) := by
  induction pre with
  | nil => simp [runTick, hfail]
  | cons x xs ih =>
    have hx : pipeline x = Except.ok () := hpre x (List.mem_cons_self x xs)
    have ih' := ih fun y hy => hpre y (List.mem_cons_of_mem x hy)
    simp [runTick, hx, ih']

/-- Witness for C2's amended theorem: the symbol before the failure is
evaluated, the failing one ends the tick, the one after is skipped. -/
theorem runTick_stops_witness :
    runTick failingPipeline ["GBPUSD", "EURUSD", "USDJPY"] =
      (["GBPUSD", "EURUSD"], some "price fetch failed") :=
  runTick_stops_at_first_failure failingPipeline ["GBPUSD"] "EURUSD" ["USDJPY"]
    "price fetch failed"
    (by intro x hx; simp only [List.mem_singleton] at hx; subst hx; simp [failingPipeline])
    (by simp [failingPipeline])

/-- C10: the news gate fails open — a throwing upcoming-news lookup
answers `false` (trading proceeds exactly as with no high-impact event) —
and a symbol shorter than 6 characters yields no currency codes and is
never news-paused, whatever events exist. -/
theorem shouldPauseTradingForNews_failOpen (symbol : String)
    (events : List NewsEvent) (err : String) :
    shouldPauseTradingForNews symbol (Except.error err) = false ∧
      (symbol.length < 6 →
        extractCurrenciesFromSymbol symbol = [] ∧
          shouldPauseTradingForNews symbol (Except.ok events) = false) := by
  refine ⟨rfl, fun hshort => ?_⟩
  have hcur : extractCurrenciesFromSymbol symbol = [] := by
    unfold extractCurrenciesFromSymbol
    rw [if_neg (by omega)]
  refine ⟨hcur, ?_⟩
  simp [shouldPauseTradingForNews, hcur]

/-- Witness for C10 at the 3-character symbol "EUR" with a pending
high-impact USD event. -/
theorem shouldPauseTradingForNews_failOpen_witness :
    shouldPauseTradingForNews "EUR" (Except.error "db down") = false ∧
      (extractCurrenciesFromSymbol "EUR" = [] ∧
        shouldPauseTradingForNews "EUR"
          (Except.ok [⟨"high", "USD"⟩]) = false) :=
  ⟨(shouldPauseTradingForNews_failOpen "EUR" [⟨"high", "USD"⟩] "db down").1,
    (shouldPauseTradingForNews_failOpen "EUR" [⟨"high", "USD"⟩] "db down").2
      (by decide)⟩

/-- C8: for positive risk amount and stop distance, the submitted volume
is exactly `min(riskAmount / (stopDistance × 100000), 1.0)` rounded
half-up to two decimals; it is nonnegative, at most 1.0, and a multiple
of 0.01 (100 × volume is an integer). -/
theorem orderVolume_capped (risk stop : ℚ) (hr : 0 < risk) (hs : 0 < stop) :
    orderVolume risk stop =
        (jsRound (min (risk / (stop * 100000)) 1 * 100) : ℚ) / 100 ∧
      0 ≤ orderVolume risk stop ∧ orderVolume risk stop ≤ 1 ∧
      (100 * orderVolume risk stop).den = 1 := by
  have hraw_pos : 0 < rawVolume risk stop := by
    unfold rawVolume
    apply lt_min
    · positivity
    · norm_num
  have hraw_le : rawVolume risk stop ≤ 1 := min_le_right _ _
  have hfloor_lb : 0 ≤ jsRound (rawVolume risk stop * 100) := by
    unfold jsRound
    rw [Int.le_floor]
    push_cast
    nlinarith [hraw_pos]
  have hfloor_ub : jsRound (rawVolume risk stop * 100) ≤ 100 := by
    unfold jsRound
    have h101 : rawVolume risk stop * 100 + 1/2 < ((101 : ℤ) : ℚ) := by
      push_cast
      nlinarith [hraw_le]
    have := Int.floor_lt.mpr h101
    omega
  refine ⟨rfl, ?_, ?_, ?_⟩
  · unfold orderVolume
    apply div_nonneg _ (by norm_num)
    exact_mod_cast hfloor_lb
  · unfold orderVolume
    rw [div_le_one (by norm_num)]
    exact_mod_cast hfloor_ub
  · unfold orderVolume
    have hcancel : (100 : ℚ) * ((jsRound (rawVolume risk stop * 100) : ℚ) / 100) =
        (jsRound (rawVolume risk stop * 100) : ℚ) := by
      field_simp
    rw [hcancel]
    exact Rat.den_intCast _

/-- Witness for C8 at risk 1000 and stop distance 1/200 (raw volume 2,
capped to 1.0). -/
theorem orderVolume_capped_witness :
    orderVolume 1000 (1/200) =
        (jsRound (min ((1000 : ℚ) / (1/200 * 100000)) 1 * 100) : ℚ) / 100 ∧
      0 ≤ orderVolume 1000 (1/200) ∧ orderVolume 1000 (1/200) ≤ 1 ∧
      (100 * orderVolume 1000 (1/200)).den = 1 :=
  orderVolume_capped 1000 (1/200) (by norm_num) (by norm_num)

/-- C7: over any history long enough for the crossover strategy (windows
at least 1, history at least as long as the slow window and of length at
least 2, so every average is over a nonempty window), `maStrategy` emits
a BUY signal exactly when the fast SMA excluding the last point was ≤
the slow SMA there and the fast SMA over the full history now strictly
exceeds the slow one; the emitted BUY carries confidence 0.7, stop loss
at 99.5% and take profit at 101% of the last price; and symmetrically
for SELL (stop loss 100.5%, take profit 99%). -/
theorem maStrategy_crossover_exact (settings : Option BotSettings)
    (symbol : String) (prices : List ℚ)
    (_hfast : 1 ≤ (resolvedParams settings).fastMA)
    (_hslow : 1 ≤ (resolvedParams settings).slowMA)
    (hlen : (resolvedParams settings).slowMA ≤ prices.length)
    (_hlen2 : 2 ≤ prices.length) :
    ((∃ sg, maStrategy settings symbol prices = some sg ∧
        sg.action = TradeAction.BUY) ↔
      (calculateSMA prices.dropLast (resolvedParams settings).fastMA ≤
          calculateSMA prices.dropLast (resolvedParams settings).slowMA ∧
        calculateSMA prices (resolvedParams settings).slowMA <
          calculateSMA prices (resolvedParams settings).fastMA)) ∧
    ((calculateSMA prices.dropLast (resolvedParams settings).fastMA ≤
          calculateSMA prices.dropLast (resolvedParams settings).slowMA ∧
        calculateSMA prices (resolvedParams settings).slowMA <
          calculateSMA prices (resolvedParams settings).fastMA) →
      maStrategy settings symbol prices =
        some ⟨symbol, TradeAction.BUY, 7/10, "MA Bullish Crossover",
          some (lastPrice prices * (995/1000)),
          some (lastPrice prices * (101/100))⟩) ∧
    ((∃ sg, maStrategy settings symbol prices = some sg ∧
        sg.action = TradeAction.SELL) ↔
      (calculateSMA prices.dropLast (resolvedParams settings).slowMA ≤
          calculateSMA prices.dropLast (resolvedParams settings).fastMA ∧
        calculateSMA prices (resolvedParams settings).fastMA <
          calculateSMA prices (resolvedParams settings).slowMA)) ∧
    ((calculateSMA prices.dropLast (resolvedParams settings).slowMA ≤
          calculateSMA prices.dropLast (resolvedParams settings).fastMA ∧
        calculateSMA prices (resolvedParams settings).fastMA <
          calculateSMA prices (resolvedParams settings).slowMA) →
      maStrategy settings symbol prices =
        some ⟨symbol, TradeAction.SELL, 7/10, "MA Bearish Crossover",
          some (lastPrice prices * (1005/1000)),
          some (lastPrice prices * (99/100))⟩) := by
  have hun : maStrategy settings symbol prices =
      (if calculateSMA prices.dropLast (resolvedParams settings).fastMA ≤
            calculateSMA prices.dropLast (resolvedParams settings).slowMA ∧
          calculateSMA prices (resolvedParams settings).slowMA <
            calculateSMA prices (resolvedParams settings).fastMA then
        some ⟨symbol, TradeAction.BUY, 7/10, "MA Bullish Crossover",
          some (lastPrice prices * (995/1000)),
          some (lastPrice prices * (101/100))⟩
      else if calculateSMA prices.dropLast (resolvedParams settings).slowMA ≤
            calculateSMA prices.dropLast (resolvedParams settings).fastMA ∧
          calculateSMA prices (resolvedParams settings).fastMA <
            calculateSMA prices (resolvedParams settings).slowMA then
        some ⟨symbol, TradeAction.SELL, 7/10, "MA Bearish Crossover",
          some (lastPrice prices * (1005/1000)),
          some (lastPrice prices * (99/100))⟩
      else none) := by
    simp only [maStrategy]
    rw [if_neg (not_lt.mpr hlen)]
  by_cases h1 : calculateSMA prices.dropLast (resolvedParams settings).fastMA ≤
      calculateSMA prices.dropLast (resolvedParams settings).slowMA ∧
    calculateSMA prices (resolvedParams settings).slowMA <
      calculateSMA prices (resolvedParams settings).fastMA
  · rw [hun, if_pos h1]
    refine ⟨⟨fun _ => h1, fun _ => ⟨_, rfl, rfl⟩⟩, fun _ => rfl, ?_, ?_⟩
    · constructor
      · rintro ⟨sg, hsg, hact⟩
        rw [Option.some_inj] at hsg
        rw [← hsg] at hact
        exact absurd hact (by simp)
      · rintro ⟨_, hfs⟩
        exact absurd hfs (not_lt.mpr (le_of_lt h1.2))
    · rintro ⟨_, hfs⟩
      exact absurd hfs (not_lt.mpr (le_of_lt h1.2))
  · by_cases h2 : calculateSMA prices.dropLast (resolvedParams settings).slowMA ≤
        calculateSMA prices.dropLast (resolvedParams settings).fastMA ∧
      calculateSMA prices (resolvedParams settings).fastMA <
        calculateSMA prices (resolvedParams settings).slowMA
    · rw [hun, if_neg h1, if_pos h2]
      refine ⟨?_, fun hb => absurd hb h1, ⟨fun _ => h2, fun _ => ⟨_, rfl, rfl⟩⟩,
        fun _ => rfl⟩
      constructor
      · rintro ⟨sg, hsg, hact⟩
        rw [Option.some_inj] at hsg
        rw [← hsg] at hact
        exact absurd hact (by simp)
      · rintro ⟨_, hfs⟩
        exact absurd hfs (not_lt.mpr (le_of_lt h2.2))
    · rw [hun, if_neg h1, if_neg h2]
      refine ⟨?_, fun hb => absurd hb h1, ?_, fun hs' => absurd hs' h2⟩
      · constructor
        · rintro ⟨sg, hsg, _⟩
          exact absurd hsg (by simp)
        · intro hb
          exact absurd hb h1
      · constructor
        · rintro ⟨sg, hsg, _⟩
          exact absurd hsg (by simp)
        · intro hs'
          exact absurd hs' h2

/-- Witness for C7: on `[100, 100, 104]` with 2/3 windows the strategy
emits the BUY signal with the specified confidence, stop loss and take
profit. -/
theorem maStrategy_crossover_exact_witness :
    maStrategy (some smallSettings) "EURUSD" pricesUp =
      some ⟨"EURUSD", TradeAction.BUY, 7/10, "MA Bullish Crossover",
        some (lastPrice pricesUp * (995/1000)),
        some (lastPrice pricesUp * (101/100))⟩ := by
  refine (maStrategy_crossover_exact (some smallSettings) "EURUSD" pricesUp
    ?_ ?_ ?_ ?_).2.1 ⟨?_, ?_⟩
  · norm_num [resolvedParams, smallSettings, smallParams]
  · norm_num [resolvedParams, smallSettings, smallParams]
  · norm_num [resolvedParams, smallSettings, smallParams, pricesUp]
  · norm_num [pricesUp]
  · norm_num [resolvedParams, smallSettings, smallParams, pricesUp,
      calculateSMA, sliceLast]
  · norm_num [resolvedParams, smallSettings, smallParams, pricesUp,
      calculateSMA, sliceLast]

end TmBot
